import Mathlib

/-!
Verification development for the two-tier memory tool
(`interpreter/tools/memory.py`): a shallow embedding of the
`MemoryStorage` operations (store, recall, forget) over explicit state
(short-term cache as a list, the Postgres backing store as a list of
rows), with timestamps and scores as rationals.  Backing-store
statements are recorded as an explicit operation trace so that frame
properties ("never touches the backing store") are statable.
-/

namespace Memory

/-- Constants from the top of `memory.py`. -/
def DEFAULT_SHORT_TERM_CAPACITY : Nat := 100

/-- `SHORT_TERM_DECAY_HOURS = 24`. -/
def SHORT_TERM_DECAY_HOURS : ℚ := 24

/-- `MEMORY_HALF_LIFE_DAYS = 30`. -/
def MEMORY_HALF_LIFE_DAYS : ℚ := 30

/-- `RECENCY_WEIGHT = 0.7`. -/
def RECENCY_WEIGHT : ℚ := 7 / 10

/-- `FREQUENCY_WEIGHT = 0.3`. -/
def FREQUENCY_WEIGHT : ℚ := 3 / 10

/-- A short-term cache record: the dict built in `MemoryStorage.store`.
Timestamps are rationals (seconds).  `store` never sets an `id` key, so
`id` is `none` for cache records; `_search_short_term` later sets the
`score` key, modelled as a field defaulting to 0.  `metadata` is kept
opaque as its JSON serialization. -/
structure MemRec where
  id : Option Nat := none
  content : String
  tags : List String := []
  metadata : String := "\x7b\x7d"
  created_at : ℚ
  last_accessed : ℚ
  access_count : Nat := 1
  score : ℚ := 0
deriving DecidableEq, Repr

/-- A row of the `memories` table (with its `memory_tags` aggregated),
as inserted by `MemoryStorage.store`. -/
structure DbRec where
  id : Nat
  content : String
  tags : List String := []
  metadata : String := "\x7b\x7d"
  created_at : ℚ
  last_accessed : ℚ
  access_count : Nat := 1
deriving DecidableEq, Repr

/-- The result wrapper.  Modelled from the spec: `ToolResult` (from
`tools/base.py`, which is not part of the sources here) carries either
output text or error text. -/
inductive ToolResult where
  | ok (output : String)
  | err (error : String)
deriving DecidableEq, Repr

/-- Whether a `ToolResult` is the error variant. -/
def ToolResult.isError : ToolResult → Bool
  | .ok _ => false
  | .err _ => true

/-- A backing-store statement issued by an operation; the trace of
these models what the PostgreSQL pool is asked to do. -/
inductive DbOp where
  | insertRow (row : DbRec)
  | rankedQuery (query : Option String) (tags : List String) (limit : Nat)
  | touchUpdate (ids : List Nat)
  | deleteById (id : Nat)
  | deleteOlderThan (cutoff : ℚ)
deriving DecidableEq, Repr

/-! ### Scoring (`_search_short_term`, lines 220-233) -/

/-- The combined relevance score computed for a short-term record:
`age_hours = (now - created_at) / 3600`,
`recency = 1 / (1 + age_hours / SHORT_TERM_DECAY_HOURS)`,
`frequency = min(access_count / 10.0, 1.0)`,
`score = RECENCY_WEIGHT * recency + FREQUENCY_WEIGHT * frequency`. -/
def scoreOf (now : ℚ) (m : MemRec) : ℚ :=
  let age_hours : ℚ := (now - m.created_at) / 3600
  let recency_score : ℚ := 1 / (1 + age_hours / SHORT_TERM_DECAY_HOURS)
  let frequency_score : ℚ := min ((m.access_count : ℚ) / 10) 1
  RECENCY_WEIGHT * recency_score + FREQUENCY_WEIGHT * frequency_score

/-- The long-term score expression pushed into the SQL query in
`_search_long_term`: days since `last_accessed`, half-life
`MEMORY_HALF_LIFE_DAYS`. -/
def longScoreOf (now : ℚ) (d : DbRec) : ℚ :=
  RECENCY_WEIGHT * (1 / (1 + ((now - d.last_accessed) / 86400) / MEMORY_HALF_LIFE_DAYS))
    + FREQUENCY_WEIGHT * min ((d.access_count : ℚ) / 10) 1

/-! ### Stable descending sort (Python `list.sort(key=score, reverse=True)`) -/

/-- Insert an element into a list already sorted by strictly descending
passes: the element goes after every element whose key is strictly
greater, and before the first whose key is `≤` its own — exactly the
placement Python's stable sort with `reverse=True` gives an earlier
element relative to later ones. -/
def insertDesc (key : α → ℚ) (m : α) : List α → List α
  | [] => [m]
  | x :: xs => if key x > key m then x :: insertDesc key m xs else m :: x :: xs

/-- Stable sort by descending key. -/
def sortDesc (key : α → ℚ) : List α → List α
  | [] => []
  | x :: xs => insertDesc key x (sortDesc key xs)

/-! ### Short-term search (`_search_short_term`) -/

/-- Char-list prefix test used to model Python's `in` on strings. -/
def charsStartWith : List Char → List Char → Bool
  | [], _ => true
  | _ :: _, [] => false
  | a :: as, b :: bs => a == b && charsStartWith as bs

/-- `needle in hay` for char lists. -/
def containsChars (needle : List Char) : List Char → Bool
  | [] => needle.isEmpty
  | c :: t => charsStartWith needle (c :: t) || containsChars needle t

/-- `query.lower() in m["content"].lower()`. -/
def contentMatches (query : String) (m : MemRec) : Bool :=
  containsChars (query.data.map Char.toLower) (m.content.data.map Char.toLower)

/-- `any(tag in m.get("tags", []) for tag in tags)`. -/
def tagsMatch (tags : List String) (m : MemRec) : Bool :=
  tags.any (fun t => m.tags.contains t)

/-- Python truthiness of the optional `query` argument: `None` and the
empty string are falsy. -/
def queryTruthy : Option String → Bool
  | none => false
  | some q => !q.isEmpty

/-- `if query:` — filter by content substring only when `query` is a
truthy (non-empty) string. -/
def filterQuery (query : Option String) (cache : List MemRec) : List MemRec :=
  match query with
  | some q => if q.isEmpty then cache else cache.filter (contentMatches q)
  | none => cache

/-- `if tags:` — filter by any-tag membership only when `tags` is a
truthy (non-empty) list. -/
def filterTags (tags : List String) (l : List MemRec) : List MemRec :=
  if tags.isEmpty then l else l.filter (tagsMatch tags)

/-- `MemoryStorage._search_short_term`: copy the cache, filter by
query substring and tag membership when those arguments are truthy,
compute each record's score, and stable-sort by descending score. -/
def search_short_term (now : ℚ) (cache : List MemRec)
    (query : Option String) (tags : List String) : List MemRec :=
  if cache.isEmpty then []
  else
    sortDesc (fun m => m.score)
      ((filterTags tags (filterQuery query cache)).map
        (fun m => { m with score := scoreOf now m }))

/-! ### store (`MemoryStorage.store`, lines 100-137) -/

/-- The memory dict built in `store`: one timestamp captured up front
is used for both `created_at` and `last_accessed`; `access_count`
starts at 1; no `id` key is set. -/
def mkMemory (now : ℚ) (content : String) (tags : List String)
    (metadata : String) : MemRec :=
  { id := none, content := content, tags := tags, metadata := metadata,
    created_at := now, last_accessed := now, access_count := 1 }

/-- The short-term insert with capacity eviction: append, then pop the
head once if the length exceeds `DEFAULT_SHORT_TERM_CAPACITY`. -/
def storeCacheStep (cache : List MemRec) (m : MemRec) : List MemRec :=
  let c := cache ++ [m]
  if DEFAULT_SHORT_TERM_CAPACITY < c.length then c.drop 1 else c

/-- Outcome of a `store` call: the `ToolResult`, the new cache, the
new backing-store contents and the statements issued to it. -/
structure StoreRes where
  result : ToolResult
  cache : List MemRec
  db : List DbRec
  ops : List DbOp
deriving Repr

/-- `MemoryStorage.store`: build the record, append to the short-term
cache (with eviction), then durably insert into the backing store.
`nextId` models the SERIAL id the insert returns; `dbOk` models
whether the backing-store write raises — on failure the `except`
branch returns an error result, after the cache append has already
happened (no rollback). -/
def store (now : ℚ) (nextId : Nat) (content : String) (tags : List String)
    (metadata : String) (cache : List MemRec) (db : List DbRec)
    (dbOk : Bool) : StoreRes :=
  let m := mkMemory now content tags metadata
  let cache' := storeCacheStep cache m
  if dbOk then
    let row : DbRec :=
      { id := nextId, content := content, tags := tags, metadata := metadata,
        created_at := now, last_accessed := now, access_count := 1 }
    { result := .ok ("Memory stored successfully with "
        ++ toString tags.length ++ " tags."),
      cache := cache', db := db ++ [row], ops := [.insertRow row] }
  else
    { result := .err "Failed to store memory: backing store raised",
      cache := cache', db := db, ops := [] }

/-! ### Long-term search (`_search_long_term`) and recall -/

/-- Case-insensitive `ILIKE` substring match on row content. -/
def dbContentMatches (query : String) (d : DbRec) : Bool :=
  containsChars (query.data.map Char.toLower) (d.content.data.map Char.toLower)

/-- `MemoryStorage._search_long_term`: the ranked SQL query — filter
by content substring and any-tag match (each clause added only when
its Python argument is truthy), score server-side, order by score
descending, limit. -/
def search_long_term (now : ℚ) (db : List DbRec)
    (query : Option String) (tags : List String) (limit : Nat) : List DbRec :=
  let r1 := if queryTruthy query then
      db.filter (dbContentMatches (query.getD "")) else db
  let r2 := if tags.isEmpty then r1
    else r1.filter (fun d => tags.any (fun t => d.tags.contains t))
  (sortDesc (fun d => longScoreOf now d) r2).take limit

/-- Convert a fetched row to the result dict `recall` works with: the
row keeps its durable `id` and carries the SQL-computed score. -/
def dbToMem (now : ℚ) (d : DbRec) : MemRec :=
  { id := some d.id, content := d.content, tags := d.tags,
    metadata := d.metadata, created_at := d.created_at,
    last_accessed := d.last_accessed, access_count := d.access_count,
    score := longScoreOf now d }

/-- The touch `UPDATE`: increment `access_count` and reset
`last_accessed` for every row whose id is in `ids`. -/
def touchDb (now : ℚ) (ids : List Nat) (db : List DbRec) : List DbRec :=
  db.map (fun d => if ids.contains d.id then
    { d with access_count := d.access_count + 1, last_accessed := now } else d)

/-- Outcome of a `recall` call: the result list, the cache and
backing-store state afterwards, and the statements issued. -/
structure RecallRes where
  results : List MemRec
  cache : List MemRec
  db : List DbRec
  ops : List DbOp
deriving Repr

/-- `MemoryStorage.recall`: search the short-term cache first; if that
already yields at least `limit` records, truncate to `limit`;
otherwise, when `use_long_term`, run the ranked backing-store query
for the remainder and append its rows after the short-term results.
Then collect the truthy ids of the returned records (cache records
carry none) and, if any, issue one batched touch update. -/
def «recall» (now : ℚ) (cache : List MemRec) (db : List DbRec)
    (query : Option String) (tags : List String) (limit : Nat)
    (use_long_term : Bool) : RecallRes :=
  let short := search_short_term now cache query tags
  let pre : List MemRec × List DbOp :=
    if limit ≤ short.length then (short.take limit, [])
    else if use_long_term then
      ((short ++ (search_long_term now db query tags (limit - short.length)).map
          (dbToMem now)),
        [.rankedQuery query tags (limit - short.length)])
    else (short, [])
  let memory_ids := (pre.1.filterMap (fun m => m.id)).filter (fun i => i ≠ 0)
  { results := pre.1,
    cache := cache,
    db := if memory_ids.isEmpty then db else touchDb now memory_ids db,
    ops := if memory_ids.isEmpty then pre.2
      else pre.2 ++ [.touchUpdate memory_ids] }

/-! ### forget (`MemoryStorage.forget`, lines 322-356) -/

/-- Python truthiness of an optional integer argument: `None` and `0`
are both falsy. -/
def intTruthy : Option Nat → Bool
  | none => false
  | some n => n ≠ 0

/-- Outcome of a `forget` call. -/
structure ForgetRes where
  count : Nat
  result : ToolResult
  cache : List MemRec
  db : List DbRec
  ops : List DbOp
deriving Repr

/-- `MemoryStorage.forget`: `if memory_id:` — id-based branch removes
matching cache entries (cache records have no id, so nothing matches)
and counts only the backing-store delete; `elif older_than_days:` —
age-based branch rebuilds the cache keeping `created_at > cutoff`,
adds the removed count, then adds the affected count of
`DELETE ... WHERE created_at < cutoff`.  With both selectors falsy
(`None` or `0`) neither branch runs and the call reports 0. -/
def forget (now : ℚ) (cache : List MemRec) (db : List DbRec)
    (memory_id : Option Nat) (older_than_days : Option Nat) : ForgetRes :=
  if intTruthy memory_id then
    let mid := memory_id.getD 0
    let cache' := cache.filter (fun m => m.id ≠ some mid)
    let affected := (db.filter (fun d => d.id = mid)).length
    { count := affected,
      result := .ok ("Forgot " ++ toString affected ++ " memories."),
      cache := cache', db := db.filter (fun d => ¬ d.id = mid),
      ops := [.deleteById mid] }
  else if intTruthy older_than_days then
    let cutoff := now - (older_than_days.getD 0 : ℚ) * 86400
    let cache' := cache.filter (fun m => cutoff < m.created_at)
    let removed := cache.length - cache'.length
    let affected := (db.filter (fun d => d.created_at < cutoff)).length
    { count := removed + affected,
      result := .ok ("Forgot " ++ toString (removed + affected) ++ " memories."),
      cache := cache', db := db.filter (fun d => ¬ d.created_at < cutoff),
      ops := [.deleteOlderThan cutoff] }
  else
    { count := 0, result := .ok "Forgot 0 memories.",
      cache := cache, db := db, ops := [] }

/-! ### Auxiliary decidable predicates and sample records -/

/-- Every record of a cache is without a durable id — the invariant
`store` maintains, since the memory dict never gets an `id` key. -/
def allIdsNone (l : List MemRec) : Bool := l.all (fun m => m.id.isNone)

/-- A plain sample record used to evaluate the operations. -/
def sampleRec : MemRec :=
  { content := "apples", created_at := 0, last_accessed := 0 }

/-- The sample record as the short-term search returns it. -/
def scoredSample : MemRec := { sampleRec with score := scoreOf 0 sampleRec }

/-- A sample backing-store row. -/
def sampleRow : DbRec :=
  { id := 1, content := "apples", created_at := 0, last_accessed := 0 }

/-- Sample record at the frequency cap (`access_count = 10`). -/
def recCapA : MemRec :=
  { content := "a", created_at := 0, last_accessed := 0, access_count := 10 }

/-- Sample record beyond the frequency cap (`access_count = 11`). -/
def recCapB : MemRec :=
  { content := "b", created_at := 0, last_accessed := 0, access_count := 11 }

/-- Sample record with `access_count = 5`, created at time 0. -/
def recFive : MemRec :=
  { content := "c", created_at := 0, last_accessed := 0, access_count := 5 }

/-- Sample record with `access_count = 3`, created at time 0. -/
def recThree : MemRec :=
  { content := "d", created_at := 0, last_accessed := 0, access_count := 3 }

/-- Sample record created at time 3600 (newer than `recThree`). -/
def recNewer : MemRec :=
  { content := "e", created_at := 3600, last_accessed := 3600, access_count := 3 }

/-! ## Lemmas about the sort and the filters -/

theorem insertDesc_perm (key : α → ℚ) (m : α) (l : List α) :
    List.Perm (insertDesc key m l) (m :: l) := by
  induction l with
  | nil => simp [insertDesc]
  | cons x xs ih =>
    simp only [insertDesc]
    split
    · exact (List.Perm.cons x ih).trans (List.Perm.swap m x xs)
    · exact List.Perm.refl _

theorem sortDesc_perm (key : α → ℚ) (l : List α) :
    List.Perm (sortDesc key l) l := by
  induction l with
  | nil => simp [sortDesc]
  | cons x xs ih =>
    exact (insertDesc_perm key x (sortDesc key xs)).trans (List.Perm.cons x ih)

theorem mem_sortDesc (key : α → ℚ) (l : List α) (m : α) :
    m ∈ sortDesc key l ↔ m ∈ l :=
  (sortDesc_perm key l).mem_iff

theorem mem_filterQuery (query : Option String) (cache : List MemRec)
    (m : MemRec) (h : m ∈ filterQuery query cache) : m ∈ cache := by
  unfold filterQuery at h
  rcases query with _ | q
  · exact h
  · by_cases hq : q.isEmpty <;> simp [hq] at h
    · exact h
    · exact h.1

theorem mem_filterTags (tags : List String) (l : List MemRec)
    (m : MemRec) (h : m ∈ filterTags tags l) : m ∈ l := by
  unfold filterTags at h
  by_cases ht : tags.isEmpty <;> simp [ht] at h
  · exact h
  · exact h.1

/-- Every record the short-term search returns is a cache record with
its `score` field set from the scoring formula. -/
theorem mem_search_short_term (now : ℚ) (cache : List MemRec)
    (query : Option String) (tags : List String) (m : MemRec)
    (h : m ∈ search_short_term now cache query tags) :
    ∃ m₀, m₀ ∈ cache ∧ m = { m₀ with score := scoreOf now m₀ } := by
  unfold search_short_term at h
  split at h
  · exact absurd h (List.not_mem_nil m)
  · rw [mem_sortDesc] at h
    obtain ⟨m₀, hm₀, hfm⟩ := List.mem_map.mp h
    exact ⟨m₀, mem_filterQuery query cache m₀ (mem_filterTags tags _ m₀ hm₀),
      hfm.symm⟩

/-- A filter and its complement partition a list's length. -/
theorem filter_length_split (p : α → Bool) (l : List α) :
    (l.filter p).length + (l.filter (fun a => !p a)).length = l.length := by
  induction l with
  | nil => rfl
  | cons x xs ih => by_cases h : p x <;> simp [List.filter_cons, h] <;> omega

/-! ## FIFO eviction lemmas -/

/-- One store step on a cache that is the `CAP`-suffix of the list of
all records stored so far yields the `CAP`-suffix of that list with
the new record appended. -/
theorem storeCacheStep_drop (l : List MemRec) (m : MemRec) :
    storeCacheStep (l.drop (l.length - DEFAULT_SHORT_TERM_CAPACITY)) m
      = (l ++ [m]).drop (l.length + 1 - DEFAULT_SHORT_TERM_CAPACITY) := by
  have hcap : DEFAULT_SHORT_TERM_CAPACITY = 100 := rfl
  by_cases h : l.length < DEFAULT_SHORT_TERM_CAPACITY
  · have h0 : l.length - DEFAULT_SHORT_TERM_CAPACITY = 0 := by omega
    have h1 : l.length + 1 - DEFAULT_SHORT_TERM_CAPACITY = 0 := by omega
    rw [h0, h1, List.drop_zero, List.drop_zero, storeCacheStep]
    have hlen : ¬ DEFAULT_SHORT_TERM_CAPACITY < (l ++ [m]).length := by
      rw [List.length_append]; simp; omega
    simp only [hlen, if_false]
  · push_neg at h
    have hdlen : (l.drop (l.length - DEFAULT_SHORT_TERM_CAPACITY)).length
        = DEFAULT_SHORT_TERM_CAPACITY := by
      rw [List.length_drop]; omega
    rw [storeCacheStep]
    have hpop : DEFAULT_SHORT_TERM_CAPACITY
        < (l.drop (l.length - DEFAULT_SHORT_TERM_CAPACITY) ++ [m]).length := by
      rw [List.length_append, hdlen]; simp
    simp only [hpop, if_true]
    rw [List.drop_append_of_le_length (by rw [hdlen]; omega : 1 ≤ _),
      List.drop_drop,
      List.drop_append_of_le_length (by omega : l.length + 1 - DEFAULT_SHORT_TERM_CAPACITY ≤ l.length)]
    congr 2
    omega

/-- The record just stored is always a member of the resulting cache. -/
theorem mem_storeCacheStep_self (cache : List MemRec) (m : MemRec) :
    m ∈ storeCacheStep cache m := by
  rw [storeCacheStep]
  split
  · next h =>
    rw [List.length_append, List.length_singleton] at h
    have hcap : DEFAULT_SHORT_TERM_CAPACITY = 100 := rfl
    have hc : 1 ≤ cache.length := by omega
    rw [List.drop_append_of_le_length hc]
    simp
  · simp

/-- The cache produced by `store` is `storeCacheStep` of the old
cache, whether or not the durable write succeeds. -/
theorem store_cache_eq (now : ℚ) (nextId : Nat) (c : String)
    (t : List String) (md : String) (cache : List MemRec) (db : List DbRec)
    (dbOk : Bool) :
    (store now nextId c t md cache db dbOk).cache
      = storeCacheStep cache (mkMemory now c t md) := by
  cases dbOk <;> rfl

/-! ## Claims -/

/-- C3: the short-term cache never exceeds `SHORT_TERM_CAPACITY`
records; a sequence of stores leaves exactly the
`min (number stored) SHORT_TERM_CAPACITY` most recently stored records,
in insertion order, the oldest evicted first (strict FIFO).  The first
conjunct ties `store` to the cache step; the second gives the suffix
characterization, from which the capacity bound
`length = min (length stored) CAP ≤ CAP` is immediate. -/
theorem store_fifo_capacity :
    (∀ (now : ℚ) (nextId : Nat) (c : String) (t : List String) (md : String)
        (cache : List MemRec) (db : List DbRec) (dbOk : Bool),
      (store now nextId c t md cache db dbOk).cache
        = storeCacheStep cache (mkMemory now c t md))
    ∧ ∀ ms : List MemRec,
        ms.foldl storeCacheStep []
            = ms.drop (ms.length - DEFAULT_SHORT_TERM_CAPACITY)
          ∧ (ms.foldl storeCacheStep []).length
            = min ms.length DEFAULT_SHORT_TERM_CAPACITY := by
  refine ⟨store_cache_eq, fun ms => ?_⟩
  have key : ms.foldl storeCacheStep []
      = ms.drop (ms.length - DEFAULT_SHORT_TERM_CAPACITY) := by
    induction ms using List.reverseRecOn with
    | nil => rfl
    | append_singleton l m ih =>
      rw [List.foldl_append, List.foldl_cons, List.foldl_nil, ih,
        storeCacheStep_drop]
      simp
  refine ⟨key, ?_⟩
  rw [key, List.length_drop]
  omega

/-- C4: a successful `store` writes a record with
`last_accessed = created_at` and `access_count = 1` into the cache and
a row with the same fields into the backing store, both carrying the
single timestamp captured at the start of the operation. -/
theorem store_timestamps (now : ℚ) (nextId : Nat) (c : String)
    (t : List String) (md : String) (cache : List MemRec) (db : List DbRec) :
    ∃ (m : MemRec) (row : DbRec),
      (store now nextId c t md cache db true).cache = storeCacheStep cache m
      ∧ (store now nextId c t md cache db true).db = db ++ [row]
      ∧ (store now nextId c t md cache db true).ops = [.insertRow row]
      ∧ m.created_at = now ∧ m.last_accessed = m.created_at
      ∧ m.access_count = 1
      ∧ row.created_at = now ∧ row.last_accessed = row.created_at
      ∧ row.access_count = 1
      ∧ row.created_at = m.created_at :=
  ⟨mkMemory now c t md,
    { id := nextId, content := c, tags := t, metadata := md,
      created_at := now, last_accessed := now, access_count := 1 },
    rfl, rfl, rfl, rfl, rfl, rfl, rfl, rfl, rfl, rfl⟩

/-- C9: when the durable write fails after the cache append, `store`
returns an error result, issues no backing-store statement, leaves the
backing store unchanged — and the new record stays in the short-term
cache (no rollback). -/
theorem store_db_failure_keeps_cache (now : ℚ) (nextId : Nat) (c : String)
    (t : List String) (md : String) (cache : List MemRec) (db : List DbRec) :
    (store now nextId c t md cache db false).result.isError = true
    ∧ (store now nextId c t md cache db false).cache
        = storeCacheStep cache (mkMemory now c t md)
    ∧ mkMemory now c t md ∈ (store now nextId c t md cache db false).cache
    ∧ (store now nextId c t md cache db false).db = db
    ∧ (store now nextId c t md cache db false).ops = [] :=
  ⟨rfl, rfl, mem_storeCacheStep_self cache (mkMemory now c t md), rfl, rfl⟩

/-- C10: `recall` never changes the short-term cache — the search
works on a copy, so membership, length and insertion order of the
cache are preserved exactly. -/
theorem recall_preserves_cache (now : ℚ) (cache : List MemRec)
    (db : List DbRec) (query : Option String) (tags : List String)
    (limit : Nat) (use_long_term : Bool) :
    («recall» now cache db query tags limit use_long_term).cache = cache :=
  rfl

/-- C1: every score the short-term search computes equals
`RECENCY_WEIGHT * (1 / (1 + age_hours / SHORT_TERM_DECAY_HOURS))
 + FREQUENCY_WEIGHT * min (access_count / 10) 1` with
`age_hours = (now - created_at) / 3600`, the weights being 0.7 and 0.3
and the decay constant 24; a brand-new record (with `access_count` 1)
scores `0.7 * 1.0 + 0.3 * 0.1`. -/
theorem recall_score_formula (now : ℚ) (cache : List MemRec)
    (query : Option String) (tags : List String) (m : MemRec)
    (h : m ∈ search_short_term now cache query tags) :
    m.score = RECENCY_WEIGHT
        * (1 / (1 + ((now - m.created_at) / 3600) / SHORT_TERM_DECAY_HOURS))
      + FREQUENCY_WEIGHT * min ((m.access_count : ℚ) / 10) 1
    ∧ RECENCY_WEIGHT = 7 / 10 ∧ FREQUENCY_WEIGHT = 3 / 10
    ∧ SHORT_TERM_DECAY_HOURS = 24
    ∧ ∀ (c : String) (t : List String) (md : String),
        scoreOf now (mkMemory now c t md) = 7 / 10 * 1 + 3 / 10 * (1 / 10) := by
  obtain ⟨m₀, -, rfl⟩ := mem_search_short_term now cache query tags m h
  refine ⟨rfl, rfl, rfl, rfl, fun c t md => ?_⟩
  simp only [scoreOf, mkMemory, RECENCY_WEIGHT, FREQUENCY_WEIGHT,
    SHORT_TERM_DECAY_HOURS, sub_self, zero_div, add_zero, Nat.cast_one]
  norm_num [min_def]

/-- C1 witness: the record returned by searching a one-record cache
carries exactly the claimed score. -/
theorem recall_score_formula_witness :
    scoredSample ∈ search_short_term 0 [sampleRec] none []
    ∧ scoredSample.score = RECENCY_WEIGHT
        * (1 / (1 + ((0 - scoredSample.created_at) / 3600) / SHORT_TERM_DECAY_HOURS))
      + FREQUENCY_WEIGHT * min ((scoredSample.access_count : ℚ) / 10) 1 :=
  have hmem : scoredSample ∈ search_short_term 0 [sampleRec] none [] :=
    List.mem_singleton_self scoredSample
  ⟨hmem, (recall_score_formula 0 [sampleRec] none [] scoredSample hmem).1⟩

/-- C2: when the short-term search already yields at least `limit`
records, `recall` returns exactly the first `limit` of them and issues
no backing-store statement at all — no ranked long-term query and no
touch update (cache records carry no durable id, so the touch id list
is empty); the backing store is left unchanged. -/
theorem recall_short_term_sufficient (now : ℚ) (cache : List MemRec)
    (db : List DbRec) (query : Option String) (tags : List String)
    (limit : Nat) (use_long_term : Bool)
    (hids : allIdsNone cache = true)
    (henough : limit ≤ (search_short_term now cache query tags).length) :
    («recall» now cache db query tags limit use_long_term).results
        = (search_short_term now cache query tags).take limit
    ∧ («recall» now cache db query tags limit use_long_term).ops = []
    ∧ («recall» now cache db query tags limit use_long_term).db = db := by
  have hnone : ∀ m ∈ (search_short_term now cache query tags).take limit,
      (fun m : MemRec => m.id) m = none := by
    intro m hm
    obtain ⟨m₀, hm₀, rfl⟩ := mem_search_short_term now cache query tags m
      (List.mem_of_mem_take hm)
    simpa [Option.isNone_iff_eq_none] using (List.all_eq_true.mp hids) m₀ hm₀
  have hfm : ((search_short_term now cache query tags).take limit).filterMap
      (fun m => m.id) = [] := List.filterMap_eq_nil_iff.mpr hnone
  simp only [Memory.recall, if_pos henough, hfm, List.filter_nil,
    List.isEmpty_nil, if_true]
  exact ⟨trivial, trivial, trivial⟩

/-- C2 witness: with one matching cache record and `limit = 1`, recall
returns that record and performs no backing-store operation. -/
theorem recall_short_term_sufficient_witness :
    allIdsNone [sampleRec] = true
    ∧ 1 ≤ (search_short_term 0 [sampleRec] none []).length
    ∧ («recall» 0 [sampleRec] [] none [] 1 true).results
        = (search_short_term 0 [sampleRec] none []).take 1
    ∧ («recall» 0 [sampleRec] [] none [] 1 true).ops = []
    ∧ («recall» 0 [sampleRec] [] none [] 1 true).db = [] :=
  have h1 : allIdsNone [sampleRec] = true := by decide
  have h2 : 1 ≤ (search_short_term 0 [sampleRec] none []).length := by decide
  ⟨h1, h2,
    (recall_short_term_sufficient 0 [sampleRec] [] none [] 1 true h1 h2).1,
    (recall_short_term_sufficient 0 [sampleRec] [] none [] 1 true h1 h2).2.1,
    (recall_short_term_sufficient 0 [sampleRec] [] none [] 1 true h1 h2).2.2⟩

/-- C5 counterexample: two records with identical age and access
counts 11 and 10 — both at or past the frequency cap — receive exactly
equal scores, so the record with the higher access count does not
receive a higher score. -/
theorem score_frequency_cap_counterexample :
    recCapA.access_count < recCapB.access_count
    ∧ recCapB.created_at = recCapA.created_at
    ∧ scoreOf 0 recCapB = scoreOf 0 recCapA
    ∧ ¬ scoreOf 0 recCapA < scoreOf 0 recCapB := by
  have heq : scoreOf 0 recCapB = scoreOf 0 recCapA := by
    norm_num [scoreOf, recCapA, recCapB, RECENCY_WEIGHT, FREQUENCY_WEIGHT,
      SHORT_TERM_DECAY_HOURS, min_def]
  exact ⟨by norm_num [recCapA, recCapB], rfl, heq, by rw [heq]; exact lt_irrefl _⟩

/-- C5 (amended): with identical access counts, the record with the
smaller nonnegative age scores strictly higher; with identical age,
the record with the higher access count scores at least as high — and
strictly higher when the smaller access count is below the frequency
cap of 10 (at or past the cap both frequency signals saturate at 1 and
the scores tie). -/
theorem score_monotonicity_amended (now : ℚ) (r1 r2 : MemRec) :
    (r1.access_count = r2.access_count → 0 ≤ now - r1.created_at →
      now - r1.created_at < now - r2.created_at →
      scoreOf now r2 < scoreOf now r1)
    ∧ (r1.created_at = r2.created_at → r2.access_count ≤ r1.access_count →
      scoreOf now r2 ≤ scoreOf now r1)
    ∧ (r1.created_at = r2.created_at → r2.access_count < r1.access_count →
      r2.access_count < 10 → scoreOf now r2 < scoreOf now r1) := by
  refine ⟨fun hc h0 hlt => ?_, fun hcr hle => ?_, fun hcr hlt hcap => ?_⟩
  · have h1 : (0:ℚ) < 1 + ((now - r1.created_at) / 3600) / 24 := by
      have : (0:ℚ) ≤ ((now - r1.created_at) / 3600) / 24 :=
        div_nonneg (div_nonneg h0 (by norm_num)) (by norm_num)
      linarith
    have h2 : 1 + ((now - r1.created_at) / 3600) / 24
        < 1 + ((now - r2.created_at) / 3600) / 24 := by
      have : (now - r1.created_at) / 3600 < (now - r2.created_at) / 3600 :=
        (div_lt_div_iff_of_pos_right (by norm_num)).mpr hlt
      have := (div_lt_div_iff_of_pos_right (show (0:ℚ) < 24 by norm_num)).mpr this
      linarith
    have hrec : 1 / (1 + ((now - r2.created_at) / 3600) / 24)
        < 1 / (1 + ((now - r1.created_at) / 3600) / 24) :=
      one_div_lt_one_div_of_lt h1 h2
    simp only [scoreOf, RECENCY_WEIGHT, FREQUENCY_WEIGHT,
      SHORT_TERM_DECAY_HOURS, hc]
    linarith
  · have hfreq : min ((r2.access_count : ℚ) / 10) 1
        ≤ min ((r1.access_count : ℚ) / 10) 1 := by
      refine min_le_min ?_ le_rfl
      exact (div_le_div_iff_of_pos_right (by norm_num)).mpr (by exact_mod_cast hle)
    simp only [scoreOf, RECENCY_WEIGHT, FREQUENCY_WEIGHT,
      SHORT_TERM_DECAY_HOURS, hcr]
    linarith
  · have hc2 : ((r2.access_count : ℚ) / 10) < 1 := by
      rw [div_lt_one (by norm_num)]
      exact_mod_cast by omega
    have hfreq : min ((r2.access_count : ℚ) / 10) 1
        < min ((r1.access_count : ℚ) / 10) 1 := by
      rw [min_eq_left hc2.le]
      refine lt_min_iff.mpr ⟨?_, hc2⟩
      exact (div_lt_div_iff_of_pos_right (by norm_num)).mpr (by exact_mod_cast hlt)
    simp only [scoreOf, RECENCY_WEIGHT, FREQUENCY_WEIGHT,
      SHORT_TERM_DECAY_HOURS, hcr]
    linarith

/-- C5 witness: concrete records exercising all three monotonicity
parts of the amended claim. -/
theorem score_monotonicity_amended_witness :
    (recNewer.access_count = recThree.access_count
      ∧ 0 ≤ (3600:ℚ) - recNewer.created_at
      ∧ (3600:ℚ) - recNewer.created_at < 3600 - recThree.created_at
      ∧ scoreOf 3600 recThree < scoreOf 3600 recNewer)
    ∧ (recFive.created_at = recThree.created_at
      ∧ recThree.access_count ≤ recFive.access_count
      ∧ scoreOf 0 recThree ≤ scoreOf 0 recFive)
    ∧ (recThree.access_count < recFive.access_count
      ∧ recThree.access_count < 10
      ∧ scoreOf 0 recThree < scoreOf 0 recFive) :=
  ⟨⟨rfl, by norm_num [recNewer], by norm_num [recNewer, recThree],
      (score_monotonicity_amended 3600 recNewer recThree).1 rfl
        (by norm_num [recNewer]) (by norm_num [recNewer, recThree])⟩,
    ⟨rfl, by norm_num [recThree, recFive],
      (score_monotonicity_amended 0 recFive recThree).2.1 rfl
        (by norm_num [recThree, recFive])⟩,
    ⟨by norm_num [recThree, recFive], by norm_num [recThree],
      (score_monotonicity_amended 0 recFive recThree).2.2 rfl
        (by norm_num [recThree, recFive]) (by norm_num [recThree])⟩⟩

/-- C6: the count a forget call reports equals the number of records
removed from the short-term cache plus the backing store's affected
row count, in every selector mode, with no double-counting correction
between the tiers.  (In the id mode no cache record ever matches, as
cache records carry no id, so the cache removal count is 0.) -/
theorem forget_count_two_tiers (now : ℚ) (cache : List MemRec)
    (db : List DbRec) (memory_id older_than_days : Option Nat)
    (hids : allIdsNone cache = true) :
    (forget now cache db memory_id older_than_days).count
      = (cache.length
          - (forget now cache db memory_id older_than_days).cache.length)
        + (db.length
          - (forget now cache db memory_id older_than_days).db.length) := by
  unfold forget
  split
  · have hcache : cache.filter
        (fun m => decide ¬(m.id = some (memory_id.getD 0))) = cache := by
      rw [List.filter_eq_self]
      intro m hm
      have hnone := List.all_eq_true.mp hids m hm
      rw [Option.isNone_iff_eq_none] at hnone
      simp [hnone]
    simp only [hcache]
    have hsplit := filter_length_split (fun d => decide (d.id = memory_id.getD 0)) db
    simp only [decide_not]
    omega
  · split
    · have hsplit := filter_length_split
        (fun d => decide (d.created_at < now - (↑(older_than_days.getD 0) : ℚ) * 86400)) db
      have hkeep := List.length_filter_le
        (fun m => decide (now - (↑(older_than_days.getD 0) : ℚ) * 86400 < m.created_at)) cache
      simp only [decide_not]
      omega
    · simp

/-- C6 witness: an age-based forget on a one-record-per-tier state. -/
theorem forget_count_two_tiers_witness :
    allIdsNone [sampleRec] = true
    ∧ (forget 1000000 [sampleRec] [sampleRow] none (some 1)).count
        = (([sampleRec] : List MemRec).length
            - (forget 1000000 [sampleRec] [sampleRow] none (some 1)).cache.length)
          + (([sampleRow] : List DbRec).length
            - (forget 1000000 [sampleRec] [sampleRow] none (some 1)).db.length) :=
  ⟨by decide,
    forget_count_two_tiers 1000000 [sampleRec] [sampleRow] none (some 1)
      (by decide)⟩

/-- C7: the code violates the claim — `older_than_days = 0` is falsy
in the `elif older_than_days:` guard, so `forget(older_than_days=0)`
removes nothing from either tier, issues no backing-store statement,
and reports "Forgot 0 memories." instead of removing every stored
record; evaluated on a state holding one record in each tier. -/
theorem forget_zero_days_noop :
    (forget 1000000 [sampleRec] [sampleRow] none (some 0)).count = 0
    ∧ (forget 1000000 [sampleRec] [sampleRow] none (some 0)).cache = [sampleRec]
    ∧ (forget 1000000 [sampleRec] [sampleRow] none (some 0)).db = [sampleRow]
    ∧ (forget 1000000 [sampleRec] [sampleRow] none (some 0)).ops = []
    ∧ (forget 1000000 [sampleRec] [sampleRow] none (some 0)).result
        = ToolResult.ok "Forgot 0 memories." :=
  ⟨rfl, rfl, rfl, rfl, rfl⟩

/-- C8 counterexample: a forget call supplying neither selector is not
rejected — on a state holding one record in each tier it returns the
success result "Forgot 0 memories.", not an error. -/
theorem forget_no_selector_not_error :
    (forget 1000000 [sampleRec] [sampleRow] none none).result
        = ToolResult.ok "Forgot 0 memories."
    ∧ (forget 1000000 [sampleRec] [sampleRow] none none).result.isError
        = false :=
  ⟨rfl, rfl⟩

/-- C8 (amended): a forget call that supplies neither a `memory_id`
nor an `older_than_days` selector touches neither tier — it removes
nothing from the short-term cache and issues no backing-store
statement — but it is accepted as a success reporting 0 memories
forgotten rather than rejected as an invalid-argument error. -/
theorem forget_no_selector_noop (now : ℚ) (cache : List MemRec)
    (db : List DbRec) :
    (forget now cache db none none).count = 0
    ∧ (forget now cache db none none).cache = cache
    ∧ (forget now cache db none none).db = db
    ∧ (forget now cache db none none).ops = []
    ∧ (forget now cache db none none).result = ToolResult.ok "Forgot 0 memories."
    ∧ (forget now cache db none none).result.isError = false :=
  ⟨rfl, rfl, rfl, rfl, rfl, rfl⟩

end Memory
